import Mathlib

/-!
Shallow embedding of the email-verification core of the repository
(`src/server/validators/email.js`, `src/server/validators/providers.js`,
the SMTP client `smtp.js`, and the bulk route
`src/server/routes/validation.js`) together with theorems settling the
frozen claims about it.

Modelling conventions:
* JavaScript exceptions / rejected promises of the external collaborators
  (DNS resolver, TCP transport, TLS upgrade) are modelled as
  `Except String` values carried by an environment record; a `try/catch`
  in the source becomes a `match` on that `Except`.
* Strings are Lean `String`s (lists of characters); the source's regexes
  are compiled into explicit decidable character-list predicates.
* Timers: a command whose reply never arrives is modelled by an exhausted
  reply list, which produces the same "Response timeout" error that the
  source's timer produces.
-/

namespace EmailVerifier

/-! ## Character classes and generic string helpers -/

/-- Character class `[a-zA-Z0-9]` of the format regex. -/
def isAlnumCh (c : Char) : Bool :=
  (('a' ≤ c && c ≤ 'z') || ('A' ≤ c && c ≤ 'Z') || ('0' ≤ c && c ≤ '9'))

/-- Character class `[a-zA-Z0-9._%+-]` (interior of the local part). -/
def isMidCh (c : Char) : Bool :=
  isAlnumCh c || c = '.' || c = '_' || c = '%' || c = '+' || c = '-'

/-- Character class `[a-zA-Z0-9-]` (interior of the first domain label). -/
def isHostCh (c : Char) : Bool :=
  isAlnumCh c || c = '-'

/-- Character class `[a-zA-Z]` (characters of the trailing domain labels). -/
def isLetterCh (c : Char) : Bool :=
  (('a' ≤ c && c ≤ 'z') || ('A' ≤ c && c ≤ 'Z'))

/-- Split a character list at the first occurrence of `sep`
(the behaviour of the anchored regex around its single `@`, and of
`email.split('@')` restricted to the first two components). -/
def splitFirst (sep : Char) : List Char → Option (List Char × List Char)
  | [] => none
  | c :: cs =>
    if c = sep then some ([], cs)
    else
      match splitFirst sep cs with
      | some (l, r) => some (c :: l, r)
      | none => none

/-- JavaScript `hay.includes(sub)` on character lists. -/
def listIncludes (sub : List Char) : List Char → Bool
  | [] => sub.isEmpty
  | c :: t => sub.isPrefixOf (c :: t) || listIncludes sub t

/-- JavaScript `hay.includes(sub)` on strings. -/
def strIncludes (hay sub : String) : Bool :=
  listIncludes sub.data hay.data

/-- ASCII lower-casing of one character (the fragment of JavaScript
`toLowerCase` exercised by the provider table and the STARTTLS
capability check, which are ASCII-only). -/
def lowerCh (c : Char) : Char :=
  if 'A' ≤ c && c ≤ 'Z' then Char.ofNat (c.toNat + 32) else c

/-- ASCII `toLowerCase` on strings. -/
def strToLower (s : String) : String :=
  ⟨s.data.map lowerCh⟩

/-! ## Format stage (`validateEmailFormat`, `email.js` lines 8–12)

The source regex is
`^[a-zA-Z0-9](?:[a-zA-Z0-9._%+-]{0,61}[a-zA-Z0-9])?@`
`[a-zA-Z0-9](?:[a-zA-Z0-9-]*[a-zA-Z0-9])?(?:\.[a-zA-Z]{2,})+$`;
it is compiled below into explicit checks of the two sides of the `@`. -/

/-- The local-part grammar of the regex:
a single alphanumeric character, or an alphanumeric character followed by
at most 61 interior characters and a final alphanumeric character. -/
def localOK (l : List Char) : Bool :=
  match l with
  | [] => false
  | c :: rest =>
    isAlnumCh c &&
      (rest.isEmpty ||
        (decide (rest.length ≤ 62) &&
          (match rest.getLast? with
           | some x => isAlnumCh x
           | none => false) &&
          rest.dropLast.all isMidCh))

/-- The local-part grammar with the regex's length bound removed
(first and last characters alphanumeric, interior characters in
`[a-zA-Z0-9._%+-]`).  Used to state what "otherwise grammatical" means in
the length-cap claim. -/
def localShapeOK (l : List Char) : Bool :=
  match l with
  | [] => false
  | c :: rest =>
    isAlnumCh c &&
      (rest.isEmpty ||
        ((match rest.getLast? with
           | some x => isAlnumCh x
           | none => false) &&
          rest.dropLast.all isMidCh))

/-- Split a character list on `.` separators (used for the domain side of
the regex, whose dot-separated decomposition is unique because no label
class contains a dot). -/
def splitOnDot : List Char → List (List Char)
  | [] => [[]]
  | c :: rest =>
    if c = '.' then [] :: splitOnDot rest
    else
      match splitOnDot rest with
      | [] => [[c]]
      | l :: ls => (c :: l) :: ls

/-- First label of the domain: `[a-zA-Z0-9](?:[a-zA-Z0-9-]*[a-zA-Z0-9])?`. -/
def firstLabelOK (l : List Char) : Bool :=
  match l with
  | [] => false
  | c :: rest =>
    isAlnumCh c &&
      (rest.isEmpty ||
        ((match rest.getLast? with
           | some x => isAlnumCh x
           | none => false) &&
          rest.dropLast.all isHostCh))

/-- Trailing label of the domain: `[a-zA-Z]{2,}`. -/
def tailLabelOK (l : List Char) : Bool :=
  decide (2 ≤ l.length) && l.all isLetterCh

/-- The domain grammar of the regex: a first label followed by at least one
dot-separated all-letter label of length at least two. -/
def domainOK (d : List Char) : Bool :=
  match splitOnDot d with
  | [] => false
  | l0 :: rest => firstLabelOK l0 && !rest.isEmpty && rest.all tailLabelOK

/-- `validateEmailFormat` (`email.js` lines 8–12): the guard
`!email || typeof email !== 'string'` is the `none`/empty cases, and the
regex test is the compiled grammar above.  A non-string input is modelled
as `none`. -/
def validateEmailFormat (input : Option String) : Bool :=
  match input with
  | none => false
  | some email =>
    match splitFirst '@' email.data with
    | none => false
    | some (l, d) => localOK l && domainOK d

/-! ## SMTP response framing (`smtp.js`, `SMTPClient.command`)

`handleResponse` accumulates socket data chunks into `response`, splits the
accumulated text on `"\r\n"`, and resolves at the first line that matches
the pattern `^\d{3}(?:[ -].*)?$` and does not match `^\d{3}-`.  If no chunk ever
produces such a line, the per-command timer rejects with
"Response timeout", modelled by `none`. -/

/-- One parsed SMTP reply, as resolved by `SMTPClient.command`. -/
structure Reply where
  code : Nat
  message : String
  fullResponse : String
  deriving Repr, DecidableEq

/-- Prepend a character to the first piece of a split (helper for
`splitCRLF`). -/
def consHead (c : Char) : List (List Char) → List (List Char)
  | [] => [[c]]
  | l :: ls => (c :: l) :: ls

/-- JavaScript `response.split('\r\n')` on character lists. -/
def splitCRLF : List Char → List (List Char)
  | [] => [[]]
  | '\r' :: '\n' :: rest => [] :: splitCRLF rest
  | c :: rest => consHead c (splitCRLF rest)

/-- A JavaScript regex line terminator: the characters that `.` (without
the dotAll flag) does not match — LF, CR, LINE SEPARATOR and PARAGRAPH
SEPARATOR. -/
def isLineTermCh (c : Char) : Bool :=
  c = '\n' || c = '\r' || c = '\u2028' || c = '\u2029'

/-- The line pattern `^\d{3}(?:[ -].*)?$`: three digits, optionally
followed by a space or hyphen and then text matched by `.*` up to the
strict end anchor — so every remaining character must be a
non-line-terminator (a line holding an embedded bare LF or CR does not
match, exactly as in JavaScript). -/
def matchRespLine (l : List Char) : Bool :=
  match l with
  | [a, b, c] => a.isDigit && b.isDigit && c.isDigit
  | a :: b :: c :: d :: rest =>
    a.isDigit && b.isDigit && c.isDigit && (d = ' ' || d = '-') &&
      rest.all (fun x => !isLineTermCh x)
  | _ => false

/-- The continuation-line test, pattern `^\d{3}-`. -/
def isContLine : List Char → Bool
  | a :: b :: c :: '-' :: _ => a.isDigit && b.isDigit && c.isDigit
  | _ => false

/-- A terminating line: matches the response-line regex and is not a
continuation line. -/
def isTermLine (l : List Char) : Bool :=
  matchRespLine l && !isContLine l

/-- `parseInt(line.substring(0, 3), 10)` on a line that starts with three
digits (0 by convention otherwise; only applied to terminating lines). -/
def lineCode : List Char → Nat
  | a :: b :: c :: _ => (a.toNat - 48) * 100 + (b.toNat - 48) * 10 + (c.toNat - 48)
  | _ => 0

/-- Scan the accumulated response for the first terminating line and build
the resolved reply from it (`code`, `message = line.substring(4) || ''`,
`fullResponse = response`). -/
def findReply (resp : List Char) : Option Reply :=
  match (splitCRLF resp).find? isTermLine with
  | some line => some ⟨lineCode line, ⟨line.drop 4⟩, ⟨resp⟩⟩
  | none => none

/-- The read loop of `SMTPClient.command`: append each delivered chunk to
the buffer and re-scan; resolve at the first buffer state holding a
terminating line, otherwise time out (`none`). -/
def commandRead (acc : List Char) : List (List Char) → Option Reply
  | [] => none
  | c :: cs =>
    match findReply (acc ++ c) with
    | some r => some r
    | none => commandRead (acc ++ c) cs

/-! ## SMTP session model (`smtp.js`, `verifyMailbox`)

A probe session is driven by an environment describing what the transport
and the server do: whether the TCP connect succeeds, the sequence of
server responses consumed by successive `command` calls (each either a
framed reply or a transport error / timeout), and whether the in-place
TLS upgrade succeeds.  An exhausted reply list stands for a silent
server, producing the timer's "Response timeout". -/

/-- Result of one `SMTPClient.command` call: a framed reply, or the
message of the rejection (timeout or socket error). -/
def CmdResult := Except String Reply

/-- Environment of one `verifyMailbox` call. -/
structure Session where
  connect : Except String Unit
  replies : List CmdResult
  tlsUpgrade : Except String Unit

/-- The value returned by `verifyMailbox`. -/
structure VerifyResult where
  success : Bool
  mailboxExists : Bool
  supportsTLS : Bool
  code : Option Nat
  message : Option String
  error : Option String
  deriving Repr, DecidableEq

/-- The `catch` branch of `verifyMailbox`. -/
def mkFail (e : String) (sTLS : Bool) : VerifyResult :=
  { success := false, mailboxExists := false, supportsTLS := sTLS
    code := none, message := none, error := some e }

/-- Consume the next server response (empty list = the per-command timer
fires). -/
def consume : List CmdResult → CmdResult × List CmdResult
  | [] => (Except.error "Response timeout", [])
  | r :: rs => (r, rs)

/-- The EHLO/HELO negotiation loop of `verifyMailbox` (lines 141–159):
for each candidate identity try `EHLO`, then fall back to `HELO`; the
first code-250 reply wins; a thrown command skips to the next candidate. -/
def ehloNegotiate : List String → List CmdResult → Option Reply × List CmdResult
  | [], rs => (none, rs)
  | _ :: hs, rs =>
    let (e, rs') := consume rs
    match e with
    | Except.error _ => ehloNegotiate hs rs'
    | Except.ok r =>
      if r.code = 250 then (some r, rs')
      else
        let (e2, rs'') := consume rs'
        match e2 with
        | Except.error _ => ehloNegotiate hs rs''
        | Except.ok r2 =>
          if r2.code = 250 then (some r2, rs'') else ehloNegotiate hs rs''

/-- The `MAIL FROM` negotiation loop of `verifyMailbox` (lines 193–203):
try each candidate sender until one returns code 250. -/
def mailFromNegotiate : List String → List CmdResult → Option Reply × List CmdResult
  | [], rs => (none, rs)
  | _ :: as', rs =>
    let (e, rs') := consume rs
    match e with
    | Except.error _ => mailFromNegotiate as' rs'
    | Except.ok r =>
      if r.code = 250 then (some r, rs') else mailFromNegotiate as' rs'

/-- `ehloResponse.fullResponse.toLowerCase().includes('starttls')`. -/
def advertisesStarttls (full : String) : Bool :=
  strIncludes (strToLower full) "starttls"

/-- Provider policy record (`providers.js`).  `provider` is the table key
attached on a successful lookup; `tempCodes` is `none` for providers whose
table entry lacks the field (JavaScript `config.tempCodes?.includes`). -/
structure ProviderConfig where
  provider : Option String
  domains : List String
  mxDomains : List String
  reliable : Bool
  heloHost : Option String
  verifyMailbox : Bool
  requireTLS : Bool
  timeout : Nat
  acceptCodes : List Nat
  rejectCodes : List Nat
  tempCodes : Option (List Nat)
  retryAttempts : Nat
  fromAddresses : List String
  deriving Repr, DecidableEq

/-- The STARTTLS section of `verifyMailbox` (lines 165–180).  Returns the
remaining replies and the `supportsTLS` flag, or the abort error together
with the `supportsTLS` value at the moment of the throw.  The section runs
only when the EHLO response advertises STARTTLS; inside it, a throw from
the `STARTTLS` command, a failed upgrade, or a throw from the re-issued
`EHLO` is fatal exactly when the policy requires TLS. -/
def starttlsStep (config : ProviderConfig) (ehloFull : String)
    (tlsUpgrade : Except String Unit) (rs : List CmdResult) :
    Except (String × Bool) (List CmdResult × Bool) :=
  if advertisesStarttls ehloFull then
    let (t, rs') := consume rs
    match t with
    | Except.error _ =>
      if config.requireTLS then Except.error ("Required TLS connection failed", false)
      else Except.ok (rs', false)
    | Except.ok tr =>
      if tr.code = 220 then
        match tlsUpgrade with
        | Except.error _ =>
          if config.requireTLS then Except.error ("Required TLS connection failed", false)
          else Except.ok (rs', false)
        | Except.ok _ =>
          let (e2, rs'') := consume rs'
          match e2 with
          | Except.error _ =>
            if config.requireTLS then Except.error ("Required TLS connection failed", true)
            else Except.ok (rs'', true)
          | Except.ok _ => Except.ok (rs'', true)
      else Except.ok (rs', false)
  else Except.ok (rs, false)

/-- `verifyMailbox(host, email, domain, config)` (`smtp.js` lines
116–229), driven by a session environment.  The `email` argument only
appears in the text of the `RCPT TO` command and does not influence the
session, and `cleanup` has no observable effect in the model. -/
def verifyMailbox (host email domain : String) (config : ProviderConfig)
    (sess : Session) : VerifyResult :=
  match sess.connect with
  | Except.error e => mkFail e false
  | Except.ok _ =>
    let (g, rs) := consume sess.replies
    match g with
    | Except.error e => mkFail e false
    | Except.ok gr =>
      if gr.code ≠ 220 then mkFail "Invalid server greeting" false
      else
        let heloHosts :=
          ((match config.heloHost with
            | some h => [h]
            | none => []) ++ [domain, host, "verify.local"]).filter (fun s => s ≠ "")
        match ehloNegotiate heloHosts rs with
        | (none, _) => mkFail "HELO/EHLO failed" false
        | (some er, rs') =>
          match starttlsStep config er.fullResponse sess.tlsUpgrade rs' with
          | Except.error (e, sTLS) => mkFail e sTLS
          | Except.ok (rs'', sTLS) =>
            let fromAddrs := config.fromAddresses ++
              ["verify@" ++ domain, "postmaster@" ++ domain, "check@" ++ domain]
            match mailFromNegotiate fromAddrs rs'' with
            | (none, _) => mkFail "MAIL FROM command failed" sTLS
            | (some _, rs3) =>
              let (rc, _) := consume rs3
              match rc with
              | Except.error e => mkFail e sTLS
              | Except.ok rr =>
                { success := true, mailboxExists := rr.code == 250
                  supportsTLS := sTLS, code := some rr.code
                  message := some rr.message, error := none }

/-! ## Provider policy table (`providers.js` lines 4–83) -/

/-- The `gmail.com` entry of `PROVIDERS`. -/
def gmailPolicy : ProviderConfig :=
  { provider := none
    domains := ["gmail.com", "googlemail.com"]
    mxDomains := ["google.com", "googlemail.com", "gmail.com"]
    reliable := true
    heloHost := some "gmail-smtp-in.l.google.com"
    verifyMailbox := true
    requireTLS := true
    timeout := 15000
    acceptCodes := [250]
    rejectCodes := [550, 551, 552, 553, 554]
    tempCodes := none
    retryAttempts := 2
    fromAddresses := ["postmaster@gmail.com", "verify@gmail.com"] }

/-- The `outlook.com` entry of `PROVIDERS`. -/
def outlookPolicy : ProviderConfig :=
  { provider := none
    domains := ["outlook.com", "hotmail.com", "live.com", "msn.com"]
    mxDomains := ["outlook.com", "hotmail.com", "microsoft.com"]
    reliable := true
    heloHost := some "outlook-com.olc.protection.outlook.com"
    verifyMailbox := true
    requireTLS := true
    timeout := 20000
    acceptCodes := [250]
    rejectCodes := [550, 551, 552, 553, 554]
    tempCodes := none
    retryAttempts := 3
    fromAddresses := ["postmaster@outlook.com", "verify@outlook.com"] }

/-- The `yahoo.com` entry of `PROVIDERS`. -/
def yahooPolicy : ProviderConfig :=
  { provider := none
    domains := ["yahoo.com", "ymail.com"]
    mxDomains := ["yahoo.com", "yahoodns.net"]
    reliable := true
    heloHost := some "mta7.am0.yahoodns.net"
    verifyMailbox := true
    requireTLS := true
    timeout := 12000
    acceptCodes := [250]
    rejectCodes := [550, 551, 552, 553, 554]
    tempCodes := none
    retryAttempts := 2
    fromAddresses := ["postmaster@yahoo.com", "verify@yahoo.com"] }

/-- The generic fallback policy (`getProviderConfig`, lines 72–82). -/
def genericPolicy : ProviderConfig :=
  { provider := none
    domains := []
    mxDomains := []
    reliable := false
    heloHost := none
    verifyMailbox := true
    requireTLS := false
    timeout := 10000
    acceptCodes := [250, 251]
    rejectCodes := [550, 551, 553, 554]
    tempCodes := some [450, 451, 452]
    retryAttempts := 2
    fromAddresses := [] }

/-- `Object.entries(PROVIDERS)` in insertion order. -/
def providersTable : List (String × ProviderConfig) :=
  [("gmail.com", gmailPolicy), ("outlook.com", outlookPolicy), ("yahoo.com", yahooPolicy)]

/-- `getProviderConfig(domain)` (`providers.js` lines 55–83): first an
exact match of the lowercased domain against each provider's `domains`
aliases, then a substring match against each provider's `mxDomains`
patterns, else the generic fallback.  A hit spreads the entry and attaches
the table key as `provider`. -/
def getProviderConfig (domain : String) : ProviderConfig :=
  let lower := strToLower domain
  match providersTable.find? (fun p => p.2.domains.contains lower) with
  | some (name, cfg) => { cfg with provider := some name }
  | none =>
    match providersTable.find? (fun p => p.2.mxDomains.any (fun mxd => strIncludes lower mxd)) with
    | some (name, cfg) => { cfg with provider := some name }
    | none => genericPolicy

/-! ## Retry/failover controller (`providers.js`, `performSMTPCheck`) -/

/-- Environment of one retry attempt: the result of the preliminary
port-25 connection test (lines 92–110) and the session consumed by the
subsequent `verifyMailbox` call. -/
structure AttemptEnv where
  testConnect : Except String Unit
  session : Session

/-- The value returned by `performSMTPCheck`.  `protectedFlag` models the
`protected: true` field of the temporary-code branch; fields absent from a
given return object are `none` (respectively `false`). -/
structure SMTPCheckResult where
  success : Bool
  mailboxExists : Bool
  supportsTLS : Bool
  code : Option Nat
  message : Option String
  protectedFlag : Bool
  error : Option String
  deriving Repr, DecidableEq

/-- `codes.includes(result.code)` where `result.code` may be absent. -/
def codeIn (codes : List Nat) : Option Nat → Bool
  | some c => codes.contains c
  | none => false

/-- `config.tempCodes?.includes(result.code)`. -/
def codeInOpt (codes : Option (List Nat)) (c : Option Nat) : Bool :=
  match codes with
  | some l => codeIn l c
  | none => false

/-- The attempt loop of `performSMTPCheck` (lines 89–158).  `n` counts the
remaining attempts, `i` the index of the current attempt in the attempt
environment, `lastError` the last recorded error.  The inter-attempt
backoff delay has no observable effect in the model. -/
def smtpCheckGo (config : ProviderConfig) (host email domain : String)
    (f : Nat → AttemptEnv) : Nat → Nat → Option String → SMTPCheckResult
  | 0, _, lastError =>
    { success := false, mailboxExists := false, supportsTLS := false
      code := none, message := none, protectedFlag := false
      error := some (lastError.getD "Maximum retry attempts exceeded") }
  | n + 1, i, lastError =>
    match (f i).testConnect with
    | Except.error e => smtpCheckGo config host email domain f n (i + 1) (some e)
    | Except.ok _ =>
      let v := verifyMailbox host email domain config (f i).session
      if v.success then
        if codeIn config.acceptCodes v.code then
          { success := true, mailboxExists := true, supportsTLS := v.supportsTLS
            code := v.code, message := v.message, protectedFlag := false, error := none }
        else if codeIn config.rejectCodes v.code then
          { success := true, mailboxExists := false, supportsTLS := v.supportsTLS
            code := v.code, message := v.message, protectedFlag := false, error := none }
        else if !config.reliable && codeInOpt config.tempCodes v.code then
          { success := true, mailboxExists := true, supportsTLS := v.supportsTLS
            code := v.code, message := some "Server employs protection measures"
            protectedFlag := true, error := none }
        else
          smtpCheckGo config host email domain f n (i + 1)
            (some (v.error.getD "Ambiguous server response"))
      else
        smtpCheckGo config host email domain f n (i + 1)
          (some (v.error.getD "Ambiguous server response"))

/-- `performSMTPCheck(mxServer, email, domain, providerConfig)`
(`providers.js` lines 85–165): resolve the effective policy
(`providerConfig || getProviderConfig(domain)`) and run up to
`retryAttempts` attempts. -/
def performSMTPCheck (host email domain : String)
    (providerConfig : Option ProviderConfig) (f : Nat → AttemptEnv) : SMTPCheckResult :=
  let config := providerConfig.getD (getProviderConfig domain)
  smtpCheckGo config host email domain f config.retryAttempts 0 none

/-! ## Validation pipeline (`email.js`, `validateEmail`) -/

/-- One MX record as returned by the resolver. -/
structure MXRecord where
  exchange : String
  priority : Nat
  deriving Repr, DecidableEq

/-- Environment of one `validateEmail` call: the outcomes of the DNS
collaborator calls (each may reject with an error message) and, for each
MX host, the per-attempt SMTP environments. -/
structure Env where
  dnsA : Except String Unit
  dnsAAAA : Except String Unit
  dnsCNAME : Except String Unit
  mx : Except String (List MXRecord)
  txt : Except String (List (List String))
  smtp : String → Nat → AttemptEnv

/-- An environment in which every collaborator fails with message `e`. -/
def failEnv (e : String) : Env :=
  { dnsA := Except.error e
    dnsAAAA := Except.error e
    dnsCNAME := Except.error e
    mx := Except.error e
    txt := Except.error e
    smtp := fun _ _ =>
      { testConnect := Except.error e
        session := { connect := Except.error e, replies := [], tlsUpgrade := Except.error e } } }

/-- Whether an `Except` models a fulfilled promise. -/
def isOk : Except String α → Bool
  | Except.ok _ => true
  | Except.error _ => false

/-- `checkDNS` (`email.js` lines 14–26): `Promise.allSettled` over the A,
AAAA and CNAME lookups, success if any is fulfilled (`allSettled` never
rejects, so the source's `catch` is not reachable). -/
def checkDNS (env : Env) : Bool :=
  isOk env.dnsA || isOk env.dnsAAAA || isOk env.dnsCNAME

/-- Insert an MX record after every already-placed record of lower or
equal priority (helper for `checkMX`; placing behind equals keeps the
sort stable). -/
def insertMX (m : MXRecord) : List MXRecord → List MXRecord
  | [] => [m]
  | x :: xs => if x.priority ≤ m.priority then x :: insertMX m xs else m :: x :: xs

/-- `records.sort((a, b) => a.priority - b.priority)`: stable sort of the
MX records, ascending by priority (`Array.prototype.sort` is stable, so
records are inserted left to right, each behind its equals). -/
def sortMX (l : List MXRecord) : List MXRecord :=
  l.foldl (fun acc m => insertMX m acc) []

/-- `checkMX` (`email.js` lines 28–36): `none` when the lookup rejects or
returns no records, otherwise the records sorted ascending by priority. -/
def checkMX (env : Env) : Option (List MXRecord) :=
  match env.mx with
  | Except.error _ => none
  | Except.ok rs => if rs.isEmpty then none else some (sortMX rs)

/-- The value returned by `checkSPF`. -/
structure SPFResult where
  spfExists : Bool
  record : Option String
  deriving Repr, DecidableEq

/-- `checkSPF` (`email.js` lines 38–52): flatten the TXT records and find
the first entry starting with `v=spf1`; a rejected lookup yields
`{exists: false, record: null}`. -/
def checkSPF (env : Env) : SPFResult :=
  match env.txt with
  | Except.error _ => { spfExists := false, record := none }
  | Except.ok recs =>
    let r := recs.flatten.find? (fun s => "v=spf1".data.isPrefixOf s.data)
    { spfExists := r.isSome, record := r }

/-- The boolean check block of a `ValidationResult`. -/
structure Checks where
  format : Bool
  dns : Bool
  mx : Bool
  spf : Bool
  smtp : Bool
  mailbox : Bool
  deriving Repr, DecidableEq

/-- The `details` block of a `ValidationResult`. -/
structure Details where
  mxRecords : List MXRecord
  spfRecord : Option String
  smtpResponse : Option SMTPCheckResult
  deriving Repr, DecidableEq

/-- The value returned by `validateEmail`; `email` echoes the raw input
(`none` models a non-string input). -/
structure ValidationResult where
  email : Option String
  valid : Bool
  checks : Checks
  details : Details
  reason : String
  deriving Repr, DecidableEq

/-- The initial result object of `validateEmail` (lines 55–72). -/
def initResult (input : Option String) : ValidationResult :=
  { email := input
    valid := false
    checks := { format := false, dns := false, mx := false
                spf := false, smtp := false, mailbox := false }
    details := { mxRecords := [], spfRecord := none, smtpResponse := none }
    reason := "" }

/-- Mutable state of the MX loop of `validateEmail` (lines 117–137). -/
structure SMTPLoopState where
  smtpResponse : Option SMTPCheckResult
  smtpOk : Bool
  mailbox : Bool
  lastError : Option String
  deriving Repr, DecidableEq

/-- The MX loop of `validateEmail` (lines 120–137): probe each MX host in
order, record each probe outcome in `details.smtpResponse`, stop at the
first successful one; `performSMTPCheck` never throws in the model, so the
source's `catch` arm is not reachable. -/
def smtpLoop (f : String → Nat → AttemptEnv) (config : ProviderConfig)
    (email domain : String) : List MXRecord → SMTPLoopState → SMTPLoopState
  | [], st => st
  | mx :: rest, st =>
    let r := performSMTPCheck mx.exchange email domain (some config) (f mx.exchange)
    let st' := { st with smtpResponse := some r }
    if r.success then { st' with smtpOk := true, mailbox := r.mailboxExists }
    else smtpLoop f config email domain rest { st' with lastError := r.error }

/-- `validateEmail(email)` (`email.js` lines 54–162).  The three
`Invalid email format` arms jointly model
`result.checks.format = validateEmailFormat(email)` being false; on the
guarded path the regex guarantees exactly one `@`, so `splitFirst` yields
the same two components as `email.split('@')`. -/
def validateEmail (env : Env) (input : Option String) : ValidationResult :=
  let base := initResult input
  match input with
  | none => { base with reason := "Invalid email format" }
  | some email =>
    match splitFirst '@' email.data with
    | none => { base with reason := "Invalid email format" }
    | some (localPart, domainChars) =>
      if !(localOK localPart && domainOK domainChars) then
        { base with reason := "Invalid email format" }
      else
        let fmtBase := { base with checks := { base.checks with format := true } }
        if 64 < localPart.length then
          { fmtBase with reason := "Local part exceeds maximum length" }
        else if 255 < domainChars.length then
          { fmtBase with reason := "Domain exceeds maximum length" }
        else if !checkDNS env then
          { fmtBase with reason := "Domain does not exist" }
        else
          let dnsBase := { fmtBase with checks := { fmtBase.checks with dns := true } }
          match checkMX env with
          | none => { dnsBase with reason := "No mail servers found for domain" }
          | some mxRecords =>
            let domain : String := ⟨domainChars⟩
            let spf := checkSPF env
            let config := getProviderConfig domain
            let st := smtpLoop env.smtp config email domain mxRecords
              { smtpResponse := none, smtpOk := false, mailbox := false, lastError := none }
            let checks : Checks :=
              { format := true, dns := true, mx := true
                spf := spf.spfExists, smtp := st.smtpOk, mailbox := st.mailbox }
            let valid := checks.format && checks.dns && checks.mx && checks.mailbox
            let reason :=
              if valid then "Email verified successfully"
              else if !checks.mailbox then "Mailbox does not exist"
              else if !checks.smtp then
                "SMTP verification failed: " ++ (st.lastError.getD "Unknown error")
              else if !checks.mx then "No mail servers found for domain"
              else if !checks.dns then "Domain does not exist"
              else "One or more validation checks failed"
            { email := input
              valid := valid
              checks := checks
              details := { mxRecords := mxRecords, spfRecord := spf.record
                           smtpResponse := st.smtpResponse }
              reason := reason }

/-! ## Batch processor (`routes/validation.js`, bulk route)

A parsed CSV record is an ordered field map; the event stream written to
the response is modelled as a list of tagged events.  SSE comment lines
(`: keepalive`) are not events.  The per-record `catch` converting a
thrown validation into a `Processing error` row is unreachable in the
model because `validateEmail` is total. -/

/-- One parsed CSV record: column name / value pairs in column order. -/
def Record := List (String × String)

/-- One augmented output row (`processChunk`, lines 121–163). -/
structure RowResult where
  fields : List (String × String)
  validation_result : String
  validation_reason : String
  mx_check : Bool
  dns_check : Bool
  spf_check : Bool
  mailbox_check : Bool
  smtp_check : Bool
  deriving Repr, DecidableEq

/-- One event of the bulk response stream. -/
inductive BatchEvent where
  | init (totalRecords : Nat) (headers : List String) : BatchEvent
  | progress (percent : ℚ) (results : List RowResult) : BatchEvent
  | complete : BatchEvent
  | error (msg : String) : BatchEvent
  deriving Repr, DecidableEq

/-- JavaScript truthiness of a possibly-absent string field. -/
def truthy : Option String → Option String
  | some s => if s = "" then none else some s
  | none => none

/-- `record.email || record.Email || record.EMAIL`. -/
def getEmailField (r : Record) : Option String :=
  (truthy (List.lookup "email" r)).orElse fun _ =>
    (truthy (List.lookup "Email" r)).orElse fun _ =>
      truthy (List.lookup "EMAIL" r)

/-- Validate one record (`processChunk`, lines 121–163): a record without
an email field becomes a synthesized failed row; otherwise the pipeline
result is flattened into the row.  `world` maps each address to the
collaborator environment its validation runs against. -/
def processRecord (world : String → Env) (r : Record) : RowResult :=
  match getEmailField r with
  | none =>
    { fields := r
      validation_result := "Invalid"
      validation_reason := "No email address found"
      mx_check := false, dns_check := false, spf_check := false
      mailbox_check := false, smtp_check := false }
  | some email =>
    let v := validateEmail (world email) (some email)
    { fields := r
      validation_result := if v.valid then "Valid" else "Invalid"
      validation_reason := if v.reason = "" then "Unknown validation status" else v.reason
      mx_check := v.checks.mx
      dns_check := v.checks.dns
      spf_check := v.checks.spf
      mailbox_check := v.checks.mailbox
      smtp_check := v.checks.smtp }

/-- The streaming pass of the bulk route (lines 174–229): records are
pushed one by one onto `chunk`; each time the chunk reaches size 5 it is
validated and a `progress` event carrying
`(processedCount / totalRecords) * 100` is emitted; the `end` handler
validates the remaining partial chunk with a literal `progress: 100`, then
emits `complete`. -/
def bulkGo (world : String → Env) (total : Nat) :
    Nat → List Record → List Record → List BatchEvent
  | _, chunk, [] =>
    (if chunk.isEmpty then []
     else [BatchEvent.progress 100 (chunk.map (processRecord world))]) ++
      [BatchEvent.complete]
  | p, chunk, r :: rs =>
    let chunk' := chunk ++ [r]
    if 5 ≤ chunk'.length then
      BatchEvent.progress (((p + chunk'.length : ℚ) / (total : ℚ)) * 100)
          (chunk'.map (processRecord world)) ::
        bulkGo world total (p + chunk'.length) [] rs
    else bulkGo world total p chunk' rs

/-- The header list of the `init` event (lines 99–112): the first record's
column names followed by the seven appended result columns. -/
def bulkHeaders (records : List Record) : List String :=
  (match records with
   | [] => []
   | r :: _ => r.map Prod.fst) ++
    ["validation_result", "validation_reason", "mx_check", "dns_check",
     "spf_check", "mailbox_check", "smtp_check"]

/-- The bulk route (`POST /validate/bulk`, lines 51–251) as an event
stream: the counting pass computes `totalRecords`; zero records throws
`CSV file is empty`, which the outer `catch` turns into a single `error`
event; otherwise an `init` event precedes the streaming pass. -/
def validateBulk (world : String → Env) (records : List Record) : List BatchEvent :=
  let total := records.length
  if total = 0 then [BatchEvent.error "CSV file is empty"]
  else BatchEvent.init total (bulkHeaders records) :: bulkGo world total 0 [] records

/-- The percentages carried by the `progress` events of a stream, in
order. -/
def progressPercents (evs : List BatchEvent) : List ℚ :=
  evs.filterMap fun e =>
    match e with
    | BatchEvent.progress q _ => some q
    | _ => none

/-! ## Concrete sample data used by witnesses -/

/-- A framed server reply whose full text equals its message. -/
def wReply (c : Nat) (m : String) : CmdResult :=
  Except.ok ⟨c, m, m⟩

/-- A session in which the server greets, accepts EHLO and MAIL FROM, and
answers the recipient probe with `rcptCode`. -/
def wSession (rcptCode : Nat) : Session :=
  { connect := Except.ok ()
    replies := [wReply 220 "ready", wReply 250 "hello", wReply 250 "ok",
                wReply rcptCode "resp"]
    tlsUpgrade := Except.ok () }

/-- A retry-attempt environment built from `wSession`. -/
def wAttempt (rcptCode : Nat) : AttemptEnv :=
  { testConnect := Except.ok (), session := wSession rcptCode }

/-- A collaborator environment in which every lookup succeeds and every
probe reaches a code-250 recipient reply. -/
def wEnv : Env :=
  { dnsA := Except.ok ()
    dnsAAAA := Except.error "none"
    dnsCNAME := Except.error "none"
    mx := Except.ok [⟨"mx1.example.org", 10⟩]
    txt := Except.ok [["v=spf1 -all"]]
    smtp := fun _ _ => wAttempt 250 }

/-- A grammatical address whose local part has exactly 64 characters. -/
def longLocalEmail : String :=
  ⟨List.replicate 64 'a' ++ '@' :: "example.com".data⟩

/-- A grammatical address whose domain has 256 characters. -/
def longDomainEmail : String :=
  "user@" ++ (⟨List.replicate 252 'a'⟩ : String) ++ ".com"

/-! ## Helper lemmas -/

lemma smtpLoop_mailbox_imp_smtp (f : String → Nat → AttemptEnv) (config : ProviderConfig)
    (email domain : String) :
    ∀ (mxs : List MXRecord) (st : SMTPLoopState), (st.mailbox = true → st.smtpOk = true) →
      (smtpLoop f config email domain mxs st).mailbox = true →
      (smtpLoop f config email domain mxs st).smtpOk = true := by
  intro mxs
  induction mxs with
  | nil => intro st h hm; exact h hm
  | cons mx rest ih =>
    intro st h
    simp only [smtpLoop]
    split
    · intro _; rfl
    · exact ih _ (by simpa using h)

lemma validateEmail_valid_eq_aux (env : Env) (input : Option String) :
    (validateEmail env input).valid =
      ((validateEmail env input).checks.format && (validateEmail env input).checks.dns &&
       (validateEmail env input).checks.mx && (validateEmail env input).checks.mailbox) := by
  cases input with
  | none => rfl
  | some email =>
    cases h : splitFirst '@' email.data with
    | none => simp [validateEmail, h, initResult]
    | some pair =>
      obtain ⟨l, d⟩ := pair
      simp only [validateEmail, h]
      split
      · simp [initResult]
      · split
        · simp [initResult]
        · split
          · simp [initResult]
          · split
            · simp [initResult]
            · cases hm : checkMX env with
              | none => simp [initResult]
              | some mxs => simp

lemma validateEmail_txt_indep_aux (env : Env) (t : Except String (List (List String)))
    (input : Option String) :
    (validateEmail { env with txt := t } input).valid = (validateEmail env input).valid := by
  cases input with
  | none => rfl
  | some email =>
    cases h : splitFirst '@' email.data with
    | none => simp [validateEmail, h]
    | some pair =>
      obtain ⟨l, d⟩ := pair
      simp only [validateEmail, h]
      split
      · rfl
      · split
        · rfl
        · split
          · rfl
          · simp only [checkDNS, checkMX]
            split
            · rfl
            · cases hm : env.mx with
              | error e => simp
              | ok rs => by_cases hrs : rs = [] <;> simp [hrs]

/-- C1: in every `ValidationResult` produced by `validateEmail`, `valid`
equals the conjunction of the `format`, `dns`, `mx` and `mailbox` checks,
and the verdict does not depend on the TXT/SPF collaborator (the source of
`checks.spf`); `checks.smtp` does not appear in the verdict either. -/
theorem validateEmail_verdict (env : Env) (input : Option String) :
    ((validateEmail env input).valid =
      ((validateEmail env input).checks.format && (validateEmail env input).checks.dns &&
       (validateEmail env input).checks.mx && (validateEmail env input).checks.mailbox)) ∧
    ∀ t, (validateEmail { env with txt := t } input).valid = (validateEmail env input).valid :=
  ⟨validateEmail_valid_eq_aux env input, fun t => validateEmail_txt_indep_aux env t input⟩

/-- C2: `validateEmail` is a total function of the collaborator
environment — including environments in which every DNS, transport and
TLS collaborator rejects — so no exception escapes it; the result always
echoes the input and always carries a non-empty reason string, and an
environment whose collaborators all fail yields an invalid (not thrown)
result. -/
theorem validateEmail_never_throws (env : Env) (input : Option String) :
    (validateEmail env input).email = input ∧
    (validateEmail env input).reason ≠ "" ∧
    ∀ e, (validateEmail (failEnv e) input).valid = false := by
  refine ⟨?_, ?_, ?_⟩
  · cases input with
    | none => rfl
    | some email =>
      cases h : splitFirst '@' email.data with
      | none => simp [validateEmail, h, initResult]
      | some pair =>
        obtain ⟨l, d⟩ := pair
        simp only [validateEmail, h]
        split
        · rfl
        · split
          · rfl
          · split
            · rfl
            · split
              · rfl
              · cases hm : checkMX env with
                | none => simp [initResult]
                | some mxs => simp
  · cases input with
    | none => simp [validateEmail, initResult]
    | some email =>
      cases h : splitFirst '@' email.data with
      | none => simp [validateEmail, h, initResult]
      | some pair =>
        obtain ⟨l, d⟩ := pair
        simp only [validateEmail, h]
        split
        · simp [initResult]
        · split
          · simp [initResult]
          · split
            · simp [initResult]
            · split
              · simp [initResult]
              · cases hm : checkMX env with
                | none => simp [initResult]
                | some mxs =>
                  simp only
                  cases hb : (smtpLoop env.smtp (getProviderConfig ⟨d⟩) email ⟨d⟩ mxs
                    { smtpResponse := none, smtpOk := false, mailbox := false,
                      lastError := none }).mailbox <;>
                    simp [hb]
  · intro e
    cases input with
    | none => rfl
    | some email =>
      cases h : splitFirst '@' email.data with
      | none => simp [validateEmail, h, initResult]
      | some pair =>
        obtain ⟨l, d⟩ := pair
        simp only [validateEmail, h]
        split
        · simp [initResult]
        · split
          · simp [initResult]
          · split
            · simp [initResult]
            · split
              · simp [initResult]
              · rename_i hdns
                simp [failEnv, checkDNS, isOk] at hdns

/-- C10: whenever the returned `checks.mailbox` is true, the `smtp`,
`format`, `dns` and `mx` checks are also true, the verdict is valid, and
the reason is the success message: a confirmed mailbox only arises after
every earlier stage passed and a successful probe. -/
theorem validateEmail_mailbox_all (env : Env) (input : Option String)
    (h : (validateEmail env input).checks.mailbox = true) :
    (validateEmail env input).checks.smtp = true ∧
    (validateEmail env input).checks.format = true ∧
    (validateEmail env input).checks.dns = true ∧
    (validateEmail env input).checks.mx = true ∧
    (validateEmail env input).valid = true ∧
    (validateEmail env input).reason = "Email verified successfully" := by
  cases input with
  | none => simp [validateEmail, initResult] at h
  | some email =>
    cases hs : splitFirst '@' email.data with
    | none => simp [validateEmail, hs, initResult] at h
    | some pair =>
      obtain ⟨l, d⟩ := pair
      simp only [validateEmail, hs] at h ⊢
      split at h
      · simp [initResult] at h
      · split at h
        · simp [initResult] at h
        · split at h
          · simp [initResult] at h
          · split at h
            · simp [initResult] at h
            · cases hm : checkMX env with
              | none => rw [hm] at h; simp [initResult] at h
              | some mxs =>
                rw [hm] at h
                rename_i h1 h2 h3 h4
                have hsm := smtpLoop_mailbox_imp_smtp env.smtp
                  (getProviderConfig ⟨d⟩) email ⟨d⟩ mxs
                  { smtpResponse := none, smtpOk := false, mailbox := false, lastError := none }
                  (by simp) (by simpa using h)
                simp at h
                simp [h1, h2, h3, h4, hm, h, hsm]

/-- Witness for C10 at a concrete environment whose probe confirms the
mailbox. -/
theorem validateEmail_mailbox_all_witness :
    (validateEmail wEnv (some "user@example.org")).checks.mailbox = true ∧
    (validateEmail wEnv (some "user@example.org")).valid = true :=
  ⟨by decide, (validateEmail_mailbox_all wEnv (some "user@example.org") (by decide)).2.2.2.2.1⟩


lemma localOK_iff (l : List Char) :
    localOK l = true ↔ (localShapeOK l = true ∧ l.length ≤ 63) := by
  cases l with
  | nil => simp [localOK, localShapeOK]
  | cons c rest =>
    simp only [localOK, localShapeOK, Bool.and_eq_true, Bool.or_eq_true,
      decide_eq_true_eq, List.isEmpty_iff, List.length_cons]
    constructor
    · rintro ⟨ha, h | ⟨⟨hlen, hM⟩, hA⟩⟩
      · exact ⟨⟨ha, Or.inl h⟩, by simp [h]⟩
      · exact ⟨⟨ha, Or.inr ⟨hM, hA⟩⟩, by omega⟩
    · rintro ⟨⟨ha, h | ⟨hM, hA⟩⟩, hlen⟩
      · exact ⟨ha, Or.inl h⟩
      · exact ⟨ha, Or.inr ⟨⟨by omega, hM⟩, hA⟩⟩

/-- Counterexample to C3 as stated: a grammatical address whose local
part has exactly 64 characters is within the claimed cap of 64 and yet is
rejected by the format check with the generic reason, because the regex
itself caps the local part at 63 characters. -/
theorem format_cap_counterexample :
    localShapeOK (List.replicate 64 'a') = true ∧
    (List.replicate 64 'a').length = 64 ∧
    domainOK "example.com".data = true ∧
    splitFirst '@' longLocalEmail.data = some (List.replicate 64 'a', "example.com".data) ∧
    validateEmailFormat (some longLocalEmail) = false ∧
    (validateEmail (failEnv "err") (some longLocalEmail)).checks.format = false ∧
    (validateEmail (failEnv "err") (some longLocalEmail)).reason = "Invalid email format" := by
  decide

theorem format_length_caps :
    (∀ (email : String) (l d : List Char), splitFirst '@' email.data = some (l, d) →
       (validateEmailFormat (some email) = true ↔
         (localShapeOK l = true ∧ l.length ≤ 63 ∧ domainOK d = true))) ∧
    (∀ (env : Env) (input : Option String),
       (validateEmail env input).reason ≠ "Local part exceeds maximum length") ∧
    (∀ (env : Env) (email : String) (l d : List Char),
       splitFirst '@' email.data = some (l, d) →
       validateEmailFormat (some email) = true → 255 < d.length →
       (validateEmail env (some email)).checks.format = true ∧
       (validateEmail env (some email)).valid = false ∧
       (validateEmail env (some email)).reason = "Domain exceeds maximum length") := by
  refine ⟨?_, ?_, ?_⟩
  · intro email l d h
    simp only [validateEmailFormat, h, Bool.and_eq_true, localOK_iff]
    tauto
  · intro env input
    cases input with
    | none => simp [validateEmail, initResult]
    | some email =>
      cases h : splitFirst '@' email.data with
      | none => simp [validateEmail, h, initResult]
      | some pair =>
        obtain ⟨l, d⟩ := pair
        simp only [validateEmail, h]
        split
        · simp [initResult]
        · split
          · rename_i h1 h2
            -- the regex passed, so the local part has at most 63 characters
            exfalso
            have h1' : localOK l = true ∧ domainOK d = true := by simpa using h1
            have hlen : l.length ≤ 63 := ((localOK_iff l).mp h1'.1).2
            omega
          · split
            · simp [initResult]
            · split
              · simp [initResult]
              · cases hm : checkMX env with
                | none => simp [initResult]
                | some mxs =>
                  simp only
                  cases hb : (smtpLoop env.smtp (getProviderConfig ⟨d⟩) email ⟨d⟩ mxs
                    { smtpResponse := none, smtpOk := false, mailbox := false,
                      lastError := none }).mailbox <;>
                    simp [hb]
  · intro env email l d h hf hd
    have hok : localOK l = true ∧ domainOK d = true := by
      simpa [validateEmailFormat, h] using hf
    have hlen : l.length ≤ 63 := ((localOK_iff l).mp hok.1).2
    simp [validateEmail, h, hok.1, hok.2, initResult, show ¬(64 < l.length) by omega, hd]

set_option maxRecDepth 8192 in
/-- Witness for the amended length-cap theorem at concrete addresses. -/
theorem format_length_caps_witness :
    (validateEmailFormat (some "user@example.org") = true ↔
      (localShapeOK "user".data = true ∧ "user".data.length ≤ 63 ∧
        domainOK "example.org".data = true)) ∧
    (validateEmail (failEnv "err") (some longDomainEmail)).reason =
      "Domain exceeds maximum length" :=
  ⟨format_length_caps.1 "user@example.org" "user".data "example.org".data (by decide),
   (format_length_caps.2.2 (failEnv "err") longDomainEmail "user".data
     (List.replicate 252 'a' ++ ".com".data) (by decide) (by decide) (by decide)).2.2⟩


lemma findReply_isSome (s : List Char) :
    (findReply s).isSome = (splitCRLF s).any isTermLine := by
  unfold findReply
  cases h : (splitCRLF s).find? isTermLine with
  | none =>
    rw [List.find?_eq_none] at h
    have ha : (splitCRLF s).any isTermLine = false :=
      List.any_eq_false.mpr fun x hx => by simpa using h x hx
    simp [ha]
  | some line =>
    simp only [Option.isSome_some, Bool.true_eq]
    rw [List.any_eq_true]
    exact ⟨line, List.mem_of_find?_eq_some h, List.find?_some h⟩

lemma commandRead_isSome : ∀ (chunks : List (List Char)) (acc : List Char),
    (commandRead acc chunks).isSome = true ↔
      ∃ k, 1 ≤ k ∧ k ≤ chunks.length ∧
        (splitCRLF (acc ++ (chunks.take k).flatten)).any isTermLine = true := by
  intro chunks
  induction chunks with
  | nil =>
    intro acc
    simp only [commandRead, Option.isSome_none, List.length_nil]
    constructor
    · intro h; cases h
    · rintro ⟨k, h1, h2, _⟩; omega
  | cons c cs ih =>
    intro acc
    simp only [commandRead]
    cases hf : findReply (acc ++ c) with
    | some r =>
      simp only [Option.isSome_some, true_iff]
      refine ⟨1, by omega, by simp, ?_⟩
      have := findReply_isSome (acc ++ c)
      rw [hf] at this
      simpa using this.symm
    | none =>
      rw [ih (acc ++ c)]
      constructor
      · rintro ⟨k, h1, h2, h3⟩
        refine ⟨k + 1, by omega, by simp; omega, ?_⟩
        simpa [List.append_assoc] using h3
      · rintro ⟨k, h1, h2, h3⟩
        match k, h1 with
        | 1, _ =>
          exfalso
          have := findReply_isSome (acc ++ c)
          rw [hf] at this
          simp only [List.take_succ_cons, List.take_zero, List.flatten_cons,
            List.flatten_nil, List.append_nil] at h3
          rw [← this] at h3
          simp at h3
        | (k' + 2), _ =>
          refine ⟨k' + 1, by omega, by simpa using h2, ?_⟩
          simpa [List.append_assoc] using h3

/-- C4: the reader of `SMTPClient.command` resolves exactly when some
prefix of the delivered data chunks accumulates to a buffer containing a
line that matches the three-digit reply pattern and is not a continuation
line; with no such prefix it never resolves and the per-command timer
fires (`none`). -/
theorem command_framing (chunks : List (List Char)) :
    (commandRead [] chunks).isSome = true ↔
      ∃ k, 1 ≤ k ∧ k ≤ chunks.length ∧
        (splitCRLF ((chunks.take k).flatten)).any isTermLine = true := by
  simpa using commandRead_isSome chunks []


/-- C5: whenever `verifyMailbox` returns success (the probe reached the
recipient step and the `RCPT TO` reply was framed), `mailboxExists` holds
exactly when the reply code equals 250, for every provider policy; the
only success return is the recipient-step one. -/
theorem verifyMailbox_rcpt_250 (host email domain : String) (config : ProviderConfig)
    (sess : Session)
    (h : (verifyMailbox host email domain config sess).success = true) :
    ((verifyMailbox host email domain config sess).mailboxExists = true ↔
      (verifyMailbox host email domain config sess).code = some 250) := by
  revert h
  unfold verifyMailbox
  iterate 10 (all_goals try split
              all_goals try simp [mkFail])

/-- Witness for C5: a session whose recipient probe answers 250. -/
theorem verifyMailbox_rcpt_250_witness :
    (verifyMailbox "mx1.example.org" "user@example.org" "example.org" genericPolicy
        (wSession 250)).success = true ∧
    ((verifyMailbox "mx1.example.org" "user@example.org" "example.org" genericPolicy
        (wSession 250)).mailboxExists = true ↔
      (verifyMailbox "mx1.example.org" "user@example.org" "example.org" genericPolicy
        (wSession 250)).code = some 250) :=
  ⟨by decide,
   verifyMailbox_rcpt_250 "mx1.example.org" "user@example.org" "example.org" genericPolicy
     (wSession 250) (by decide)⟩


lemma getProviderConfig_mem (d : String) :
    getProviderConfig d = { gmailPolicy with provider := some "gmail.com" } ∨
    getProviderConfig d = { outlookPolicy with provider := some "outlook.com" } ∨
    getProviderConfig d = { yahooPolicy with provider := some "yahoo.com" } ∨
    getProviderConfig d = genericPolicy := by
  unfold getProviderConfig providersTable
  simp only [List.find?]
  split
  · rename_i name cfg heq
    repeat' split at heq
    all_goals first
      | (cases heq; left; rfl)
      | (cases heq; right; left; rfl)
      | (cases heq; right; right; left; rfl)
      | cases heq
  · split
    · rename_i name cfg heq
      repeat' split at heq
      all_goals first
        | (cases heq; left; rfl)
        | (cases heq; right; left; rfl)
        | (cases heq; right; right; left; rfl)
        | cases heq
    · right; right; right; rfl

lemma reject_not_accept (d : String) (c : Nat)
    (h : (getProviderConfig d).rejectCodes.contains c = true) :
    (getProviderConfig d).acceptCodes.contains c = false := by
  rcases getProviderConfig_mem d with h4 | h4 | h4 | h4 <;>
    rw [h4] at h ⊢ <;>
    simp [gmailPolicy, outlookPolicy, yahooPolicy, genericPolicy] at h ⊢ <;>
    omega

/-- C6: a completed probe whose reply code is in the policy's
`rejectCodes` makes the controller return `success, mailbox absent`
immediately: the outcome is fully determined by the first attempt, so no
further attempt against the host is performed (the conclusion does not
depend on `f` beyond attempt 0). -/
theorem probe_reject_is_final (d host email domain : String) (config : ProviderConfig)
    (hc : config = getProviderConfig d)
    (f : Nat → AttemptEnv) (c : Nat)
    (hn : 0 < config.retryAttempts)
    (hconn : (f 0).testConnect = Except.ok ())
    (hs : (verifyMailbox host email domain config (f 0).session).success = true)
    (hcode : (verifyMailbox host email domain config (f 0).session).code = some c)
    (hr : config.rejectCodes.contains c = true) :
    performSMTPCheck host email domain (some config) f =
      { success := true, mailboxExists := false
        supportsTLS := (verifyMailbox host email domain config (f 0).session).supportsTLS
        code := some c
        message := (verifyMailbox host email domain config (f 0).session).message
        protectedFlag := false, error := none } := by
  have hacc : config.acceptCodes.contains c = false := by
    subst hc; exact reject_not_accept d c hr
  obtain ⟨n, hn'⟩ : ∃ n, config.retryAttempts = n + 1 :=
    ⟨config.retryAttempts - 1, by omega⟩
  have hr' : c ∈ config.rejectCodes := by simpa using hr
  have hacc' : c ∉ config.acceptCodes := by simpa using hacc
  unfold performSMTPCheck
  simp only [Option.getD_some, hn', smtpCheckGo, hconn]
  simp [hs, hcode, codeIn, hacc', hr']

/-- Witness for C6: the generic policy rejecting with code 550. -/
theorem probe_reject_is_final_witness :
    performSMTPCheck "mx1.example.org" "user@example.org" "example.org"
        (some genericPolicy) (fun _ => wAttempt 550) =
      { success := true, mailboxExists := false, supportsTLS := false
        code := some 550, message := some "resp"
        protectedFlag := false, error := none } := by
  rw [probe_reject_is_final "example.org" "mx1.example.org" "user@example.org" "example.org"
    genericPolicy (by decide) (fun _ => wAttempt 550) 550 (by decide) rfl
    (by decide) (by decide) (by decide)]
  decide

/-- C7: for a non-reliable policy that defines temporary codes, a
completed probe whose code is a temporary code outside the accept and
reject sets is classified as success with the mailbox presumed to exist
and the `protected` flag set, again independently of attempts after the
first. -/
theorem temp_code_protected (host email domain : String) (config : ProviderConfig)
    (f : Nat → AttemptEnv) (c : Nat) (ts : List Nat)
    (hrel : config.reliable = false)
    (htc : config.tempCodes = some ts)
    (hn : 0 < config.retryAttempts)
    (hconn : (f 0).testConnect = Except.ok ())
    (hs : (verifyMailbox host email domain config (f 0).session).success = true)
    (hcode : (verifyMailbox host email domain config (f 0).session).code = some c)
    (hmem : ts.contains c = true)
    (hna : config.acceptCodes.contains c = false)
    (hnr : config.rejectCodes.contains c = false) :
    performSMTPCheck host email domain (some config) f =
      { success := true, mailboxExists := true
        supportsTLS := (verifyMailbox host email domain config (f 0).session).supportsTLS
        code := some c
        message := some "Server employs protection measures"
        protectedFlag := true, error := none } := by
  obtain ⟨n, hn'⟩ : ∃ n, config.retryAttempts = n + 1 :=
    ⟨config.retryAttempts - 1, by omega⟩
  have hmem' : c ∈ ts := by simpa using hmem
  have hna' : c ∉ config.acceptCodes := by simpa using hna
  have hnr' : c ∉ config.rejectCodes := by simpa using hnr
  unfold performSMTPCheck
  simp only [Option.getD_some, hn', smtpCheckGo, hconn]
  simp [hs, hcode, codeIn, codeInOpt, hna', hnr', hrel, htc, hmem']

/-- Witness for C7: the generic fallback policy and temporary code 450. -/
theorem temp_code_protected_witness :
    performSMTPCheck "mx1.example.org" "user@example.org" "example.org"
        (some genericPolicy) (fun _ => wAttempt 450) =
      { success := true, mailboxExists := true, supportsTLS := false
        code := some 450, message := some "Server employs protection measures"
        protectedFlag := true, error := none } := by
  rw [temp_code_protected "mx1.example.org" "user@example.org" "example.org"
    genericPolicy (fun _ => wAttempt 450) 450 [450, 451, 452] (by decide) (by decide)
    (by decide) rfl (by decide) (by decide) (by decide) (by decide) (by decide)]
  decide


lemma heloHosts_ne_nil (o : Option String) (domain host : String) :
    ((match o with
      | some h => [h]
      | none => []) ++ [domain, host, "verify.local"]).filter (fun s => s ≠ "") ≠ [] := by
  have hm : "verify.local" ∈
      ((match o with
        | some h => [h]
        | none => []) ++ [domain, host, "verify.local"]).filter (fun s => s ≠ "") := by
    rw [List.mem_filter]
    constructor
    · cases o <;> simp
    · decide
  exact List.ne_nil_of_mem hm

/-- C8: on a server that advertised STARTTLS and answered the `STARTTLS`
command with 220, a failed TLS upgrade aborts the probe with
"Required TLS connection failed" when the policy requires TLS, and
otherwise the probe continues unencrypted: the session behaves exactly as
a session in which STARTTLS was never advertised. -/
theorem starttls_required_policy (host email domain : String) (config : ProviderConfig)
    (g e1 s1 : Reply) (rest : List CmdResult) (tlsErr : String)
    (hg : g.code = 220) (he : e1.code = 250) (hs1 : s1.code = 220)
    (hadv : advertisesStarttls e1.fullResponse = true) :
    (config.requireTLS = true →
      verifyMailbox host email domain config
        { connect := Except.ok ()
          replies := ([Except.ok g, Except.ok e1, Except.ok s1] : List CmdResult) ++ rest
          tlsUpgrade := Except.error tlsErr } =
        mkFail "Required TLS connection failed" false) ∧
    (config.requireTLS = false → ∀ (e2 : Reply) (tlsUp : Except String Unit),
      e2.code = 250 → advertisesStarttls e2.fullResponse = false →
      verifyMailbox host email domain config
        { connect := Except.ok ()
          replies := ([Except.ok g, Except.ok e1, Except.ok s1] : List CmdResult) ++ rest
          tlsUpgrade := Except.error tlsErr } =
      verifyMailbox host email domain config
        { connect := Except.ok ()
          replies := ([Except.ok g, Except.ok e2] : List CmdResult) ++ rest
          tlsUpgrade := tlsUp }) := by
  cases hl : ((match config.heloHost with
      | some h => [h]
      | none => []) ++ [domain, host, "verify.local"]).filter (fun s => s ≠ "") with
  | nil => exact absurd hl (heloHosts_ne_nil config.heloHost domain host)
  | cons hh ht =>
    constructor
    · intro hreq
      unfold verifyMailbox
      rw [hl]
      simp [consume, hg, ehloNegotiate, he, starttlsStep, hadv, hs1, hreq]
    · intro hreq e2 tlsUp he2 hadv2
      unfold verifyMailbox
      rw [hl]
      simp [consume, hg, ehloNegotiate, he, he2, starttlsStep, hadv, hadv2, hs1, hreq]

/-- Witness for C8: a gmail-policy session aborting on a failed upgrade,
and a generic-policy session continuing unencrypted. -/
theorem starttls_required_policy_witness :
    (verifyMailbox "mx.example.org" "user@gmail.com" "gmail.com" gmailPolicy
        { connect := Except.ok ()
          replies := ([Except.ok ⟨220, "ready", "ready"⟩,
                       Except.ok ⟨250, "hello", "250-STARTTLS"⟩,
                       Except.ok ⟨220, "go", "go"⟩] : List CmdResult) ++ [wReply 250 "a", wReply 250 "b"]
          tlsUpgrade := Except.error "upgrade failed" } =
      mkFail "Required TLS connection failed" false) ∧
    (verifyMailbox "mx.example.org" "user@example.org" "example.org" genericPolicy
        { connect := Except.ok ()
          replies := ([Except.ok ⟨220, "ready", "ready"⟩,
                       Except.ok ⟨250, "hello", "250-STARTTLS"⟩,
                       Except.ok ⟨220, "go", "go"⟩] : List CmdResult) ++ [wReply 250 "a", wReply 250 "b"]
          tlsUpgrade := Except.error "upgrade failed" } =
      verifyMailbox "mx.example.org" "user@example.org" "example.org" genericPolicy
        { connect := Except.ok ()
          replies := ([Except.ok ⟨220, "ready", "ready"⟩,
                       Except.ok ⟨250, "hello", "hello"⟩] : List CmdResult) ++ [wReply 250 "a", wReply 250 "b"]
          tlsUpgrade := Except.ok () }) :=
  ⟨(starttls_required_policy "mx.example.org" "user@gmail.com" "gmail.com" gmailPolicy
      ⟨220, "ready", "ready"⟩ ⟨250, "hello", "250-STARTTLS"⟩ ⟨220, "go", "go"⟩
      [wReply 250 "a", wReply 250 "b"] "upgrade failed" rfl rfl rfl (by decide)).1 rfl,
   (starttls_required_policy "mx.example.org" "user@example.org" "example.org" genericPolicy
      ⟨220, "ready", "ready"⟩ ⟨250, "hello", "250-STARTTLS"⟩ ⟨220, "go", "go"⟩
      [wReply 250 "a", wReply 250 "b"] "upgrade failed" rfl rfl rfl (by decide)).2 rfl
      ⟨250, "hello", "hello"⟩ (Except.ok ()) rfl (by decide)⟩


lemma pct_mono (total : ℕ) (htot : 0 < total) {a b : ℕ} (h : a ≤ b) :
    (a : ℚ) / total * 100 ≤ (b : ℚ) / total * 100 := by
  have h0 : (0 : ℚ) < total := by exact_mod_cast htot
  have ha : (a : ℚ) ≤ b := by exact_mod_cast h
  gcongr

lemma pct_le_100 (total : ℕ) (htot : 0 < total) {a : ℕ} (h : a ≤ total) :
    (a : ℚ) / total * 100 ≤ 100 := by
  have h0 : (0 : ℚ) < total := by exact_mod_cast htot
  have h1 : (a : ℚ) / total ≤ 1 := by
    rw [div_le_one h0]; exact_mod_cast h
  calc (a : ℚ) / total * 100 ≤ 1 * 100 :=
        mul_le_mul_of_nonneg_right h1 (by norm_num)
    _ = 100 := by norm_num

lemma getLast?_append_singleton {α : Type} (l : List α) (a : α) :
    (l ++ [a]).getLast? = some a := by
  simp

lemma bulkGo_ends (world : String → Env) (total : Nat) :
    ∀ (rs : List Record) (p : Nat) (chunk : List Record),
      ∃ l, bulkGo world total p chunk rs = l ++ [BatchEvent.complete] := by
  intro rs
  induction rs with
  | nil => intro p chunk; exact ⟨_, rfl⟩
  | cons r rs ih =>
    intro p chunk
    simp only [bulkGo]
    by_cases h5 : 5 ≤ (chunk ++ [r]).length
    · simp only [if_pos h5]
      obtain ⟨l, hl⟩ := ih (p + (chunk ++ [r]).length) []
      exact ⟨_, by rw [hl, List.cons_append]⟩
    · simp only [if_neg h5]
      exact ih p (chunk ++ [r])

lemma bulkGo_props (world : String → Env) (total : Nat) (htot : 0 < total) :
    ∀ (rs : List Record) (p : Nat) (chunk : List Record),
      p + chunk.length + rs.length = total →
      List.Chain' (· ≤ ·) (progressPercents (bulkGo world total p chunk rs)) ∧
      ∀ q ∈ progressPercents (bulkGo world total p chunk rs),
        (p : ℚ) / (total : ℚ) * 100 ≤ q ∧ q ≤ 100 := by
  intro rs
  induction rs with
  | nil =>
    intro p chunk hinv
    simp only [bulkGo]
    by_cases hc : chunk.isEmpty
    · simp [hc, progressPercents]
    · simp only [hc, if_neg, Bool.false_eq_true, List.nil_append, progressPercents,
        List.filterMap_cons, List.filterMap_nil]
      constructor
      · simp
      · intro q hq
        simp at hq
        subst hq
        have hp : p ≤ total := by simp at hinv; omega
        exact ⟨pct_le_100 total htot hp, le_refl 100⟩
  | cons r rs ih =>
    intro p chunk hinv
    simp only [bulkGo]
    by_cases h5 : 5 ≤ (chunk ++ [r]).length
    · simp only [if_pos h5]
      have hinv' : (p + (chunk ++ [r]).length) + List.length ([] : List Record) + rs.length = total := by
        simp at hinv ⊢; omega
      obtain ⟨ihc, ihb⟩ := ih (p + (chunk ++ [r]).length) [] hinv'
      have hcast : ((p + (chunk ++ [r]).length : ℕ) : ℚ) / (total : ℚ) * 100 =
          ((p : ℚ) + ((chunk ++ [r]).length : ℚ)) / (total : ℚ) * 100 := by
        push_cast; ring
      constructor
      · rw [progressPercents, List.filterMap_cons]
        simp only
        rw [List.chain'_cons']
        constructor
        · intro y hy
          have hym : y ∈ progressPercents (bulkGo world total (p + (chunk ++ [r]).length) [] rs) :=
            List.mem_of_mem_head? hy
          have := (ihb y hym).1
          rw [hcast] at this
          exact this
        · exact ihc
      · rw [progressPercents, List.filterMap_cons]
        simp only
        intro q hq
        rcases List.mem_cons.mp hq with hq | hq
        · subst hq
          constructor
          · rw [← hcast]
            exact pct_mono total htot (by omega)
          · rw [← hcast]
            refine pct_le_100 total htot ?_
            simp at hinv ⊢
            omega
        · obtain ⟨hlow, hhigh⟩ := ihb q hq
          refine ⟨le_trans ?_ hlow, hhigh⟩
          exact pct_mono total htot (by omega)
    · simp only [if_neg h5]
      have hinv' : p + (chunk ++ [r]).length + rs.length = total := by
        simp at hinv ⊢; omega
      exact ih p (chunk ++ [r]) hinv'

/-- C9: an empty batch yields exactly one `error` event (no `progress`,
no `complete`); a non-empty batch yields a stream whose `progress`
percentages are non-decreasing and whose final event is `complete`. -/
theorem bulk_stream_shape (world : String → Env) (records : List Record) :
    (records = [] → validateBulk world records = [BatchEvent.error "CSV file is empty"]) ∧
    (records ≠ [] →
      List.Chain' (· ≤ ·) (progressPercents (validateBulk world records)) ∧
      (validateBulk world records).getLast? = some BatchEvent.complete) := by
  constructor
  · intro h; subst h; rfl
  · intro h
    have htot : 0 < records.length := List.length_pos.mpr h
    have htot' : ¬records.length = 0 := by omega
    constructor
    · simp only [validateBulk, if_neg htot', progressPercents, List.filterMap_cons]
      have := (bulkGo_props world records.length htot records 0 [] (by simp)).1
      simpa [progressPercents] using this
    · simp only [validateBulk, if_neg htot']
      obtain ⟨l, hl⟩ := bulkGo_ends world records.length records 0 []
      rw [hl, ← List.cons_append]
      exact getLast?_append_singleton _ _

/-- Witness for C9 at an empty and a one-record batch. -/
theorem bulk_stream_shape_witness :
    validateBulk (fun _ => failEnv "e") [] = [BatchEvent.error "CSV file is empty"] ∧
    (validateBulk (fun _ => failEnv "e")
        ([[("email", "user@example.org")]] : List Record)).getLast? =
      some BatchEvent.complete ∧
    List.Chain' (· ≤ ·) (progressPercents (validateBulk (fun _ => failEnv "e")
        ([[("email", "user@example.org")]] : List Record))) :=
  ⟨(bulk_stream_shape (fun _ => failEnv "e") []).1 rfl,
   ((bulk_stream_shape (fun _ => failEnv "e") _).2 (by simp)).2,
   ((bulk_stream_shape (fun _ => failEnv "e") _).2 (by simp)).1⟩

end EmailVerifier
